import Mathlib

/-!
Shallow embedding of the yazl ZIP writer (src/lowlevel.js, src/index.js).

Buffers are modelled as `List Nat` (one `Nat` per byte), JavaScript strings as
`List Char` (or `List Nat` of code points for the CP437 encoder, whose source
operates on code points).  The little-endian buffer writers mirror Node's
`Buffer.writeUInt16LE` / `writeUInt32LE` and the source's `writeUInt64LE`.
-/

namespace Yazl

def writeUInt16LE (n : Nat) : List Nat :=
  [n % 256, n / 256 % 256]

def writeUInt32LE (n : Nat) : List Nat :=
  [n % 256, n / 256 % 256, n / 65536 % 256, n / 16777216 % 256]

/-- Source `writeUInt64LE`: low 32 bits first, then the high 32 bits. -/
def writeUInt64LE (n : Nat) : List Nat :=
  writeUInt32LE (n % 4294967296) ++ writeUInt32LE (n / 4294967296)

def VERSION_NEEDED_TO_EXTRACT_UTF8 : Nat := 20
def VERSION_NEEDED_TO_EXTRACT_ZIP64 : Nat := 45
def VERSION_MADE_BY : Nat := (3 <<< 8) ||| 63
def FILE_NAME_IS_UTF8 : Nat := 1 <<< 11
def UNKNOWN_CRC32_AND_FILE_SIZES : Nat := 1 <<< 3
def ZIP64_END_OF_CENTRAL_DIRECTORY_RECORD_SIZE : Nat := 56
def ZIP64_END_OF_CENTRAL_DIRECTORY_LOCATOR_SIZE : Nat := 20
def END_OF_CENTRAL_DIRECTORY_RECORD_SIZE : Nat := 22
def DATA_DESCRIPTOR_SIZE : Nat := 16
def ZIP64_DATA_DESCRIPTOR_SIZE : Nat := 24
def CENTRAL_DIRECTORY_RECORD_FIXED_SIZE : Nat := 46
def ZIP64_EXTENDED_INFORMATION_EXTRA_FIELD_SIZE : Nat := 28

/-- The sealed per-entry state consumed by the byte encoders. -/
structure Entry where
  utf8FileName : List Nat
  fileComment : List Nat
  lastModFileTime : Nat
  lastModFileDate : Nat
  crc32 : Nat
  uncompressedSize : Nat
  compressedSize : Nat
  relativeOffsetOfLocalHeader : Nat
  compress : Bool
  crcAndFileSizeKnown : Bool
  forceZip64Format : Bool
  externalFileAttributes : Nat

/-- The `useZip64Format` condition computed in `getCentralDirectoryRecord`
(and again, identically, in `getDataDescriptor`). -/
def entryUseZip64Format (entry : Entry) : Bool :=
  entry.forceZip64Format
    || decide (entry.uncompressedSize > 0xfffffffe)
    || decide (entry.compressedSize > 0xfffffffe)
    || decide (entry.relativeOffsetOfLocalHeader > 0xfffffffe)

def getCentralDirectoryRecord (entry : Entry) : List Nat :=
  let generalPurposeBitFlag :=
    if entry.crcAndFileSizeKnown then FILE_NAME_IS_UTF8
    else FILE_NAME_IS_UTF8 ||| UNKNOWN_CRC32_AND_FILE_SIZES
  let useZip64Format := entryUseZip64Format entry
  let normalCompressedSize :=
    if useZip64Format then 0xffffffff else entry.compressedSize
  let normalUncompressedSize :=
    if useZip64Format then 0xffffffff else entry.uncompressedSize
  let normalRelativeOffsetOfLocalHeader :=
    if useZip64Format then 0xffffffff else entry.relativeOffsetOfLocalHeader
  let versionNeededToExtract :=
    if useZip64Format then VERSION_NEEDED_TO_EXTRACT_ZIP64
    else VERSION_NEEDED_TO_EXTRACT_UTF8
  let zeiefBuffer :=
    if useZip64Format then
      writeUInt16LE 0x0001
        ++ writeUInt16LE (ZIP64_EXTENDED_INFORMATION_EXTRA_FIELD_SIZE - 4)
        ++ writeUInt64LE entry.uncompressedSize
        ++ writeUInt64LE entry.compressedSize
        ++ writeUInt64LE entry.relativeOffsetOfLocalHeader
    else []
  writeUInt32LE 0x02014b50
    ++ writeUInt16LE VERSION_MADE_BY
    ++ writeUInt16LE versionNeededToExtract
    ++ writeUInt16LE generalPurposeBitFlag
    ++ writeUInt16LE (if entry.compress then 8 else 0)
    ++ writeUInt16LE entry.lastModFileTime
    ++ writeUInt16LE entry.lastModFileDate
    ++ writeUInt32LE entry.crc32
    ++ writeUInt32LE normalCompressedSize
    ++ writeUInt32LE normalUncompressedSize
    ++ writeUInt16LE entry.utf8FileName.length
    ++ writeUInt16LE zeiefBuffer.length
    ++ writeUInt16LE entry.fileComment.length
    ++ writeUInt16LE 0
    ++ writeUInt16LE 0
    ++ writeUInt32LE entry.externalFileAttributes
    ++ writeUInt32LE normalRelativeOffsetOfLocalHeader
    ++ entry.utf8FileName
    ++ zeiefBuffer
    ++ entry.fileComment

/-- The ZIP64 shape of the central directory record, spelled out. -/
theorem getCentralDirectoryRecord_zip64 (entry : Entry)
    (hz : entryUseZip64Format entry = true) :
    getCentralDirectoryRecord entry
      = writeUInt32LE 0x02014b50
        ++ writeUInt16LE VERSION_MADE_BY
        ++ writeUInt16LE 45
        ++ writeUInt16LE (if entry.crcAndFileSizeKnown then FILE_NAME_IS_UTF8
            else FILE_NAME_IS_UTF8 ||| UNKNOWN_CRC32_AND_FILE_SIZES)
        ++ writeUInt16LE (if entry.compress then 8 else 0)
        ++ writeUInt16LE entry.lastModFileTime
        ++ writeUInt16LE entry.lastModFileDate
        ++ writeUInt32LE entry.crc32
        ++ writeUInt32LE 0xffffffff
        ++ writeUInt32LE 0xffffffff
        ++ writeUInt16LE entry.utf8FileName.length
        ++ writeUInt16LE 28
        ++ writeUInt16LE entry.fileComment.length
        ++ writeUInt16LE 0
        ++ writeUInt16LE 0
        ++ writeUInt32LE entry.externalFileAttributes
        ++ writeUInt32LE 0xffffffff
        ++ entry.utf8FileName
        ++ (writeUInt16LE 0x0001 ++ writeUInt16LE 24
            ++ writeUInt64LE entry.uncompressedSize
            ++ writeUInt64LE entry.compressedSize
            ++ writeUInt64LE entry.relativeOffsetOfLocalHeader)
        ++ entry.fileComment := by
  simp only [getCentralDirectoryRecord, hz, if_true]
  simp [writeUInt16LE, writeUInt32LE, writeUInt64LE,
    VERSION_NEEDED_TO_EXTRACT_ZIP64, ZIP64_EXTENDED_INFORMATION_EXTRA_FIELD_SIZE]

/-- The normal (non-ZIP64) shape of the central directory record. -/
theorem getCentralDirectoryRecord_normal (entry : Entry)
    (hz : entryUseZip64Format entry = false) :
    getCentralDirectoryRecord entry
      = writeUInt32LE 0x02014b50
        ++ writeUInt16LE VERSION_MADE_BY
        ++ writeUInt16LE 20
        ++ writeUInt16LE (if entry.crcAndFileSizeKnown then FILE_NAME_IS_UTF8
            else FILE_NAME_IS_UTF8 ||| UNKNOWN_CRC32_AND_FILE_SIZES)
        ++ writeUInt16LE (if entry.compress then 8 else 0)
        ++ writeUInt16LE entry.lastModFileTime
        ++ writeUInt16LE entry.lastModFileDate
        ++ writeUInt32LE entry.crc32
        ++ writeUInt32LE entry.compressedSize
        ++ writeUInt32LE entry.uncompressedSize
        ++ writeUInt16LE entry.utf8FileName.length
        ++ writeUInt16LE 0
        ++ writeUInt16LE entry.fileComment.length
        ++ writeUInt16LE 0
        ++ writeUInt16LE 0
        ++ writeUInt32LE entry.externalFileAttributes
        ++ writeUInt32LE entry.relativeOffsetOfLocalHeader
        ++ entry.utf8FileName
        ++ entry.fileComment := by
  simp only [getCentralDirectoryRecord, hz, Bool.false_eq_true, if_false]
  simp [writeUInt16LE, writeUInt32LE, VERSION_NEEDED_TO_EXTRACT_UTF8]

theorem entryUseZip64Format_iff (entry : Entry) :
    entryUseZip64Format entry = true
      ↔ (entry.forceZip64Format = true
          ∨ 0xfffffffe < entry.uncompressedSize
          ∨ 0xfffffffe < entry.compressedSize
          ∨ 0xfffffffe < entry.relativeOffsetOfLocalHeader) := by
  simp [entryUseZip64Format, Bool.or_eq_true, decide_eq_true_iff, or_assoc]

/-- C1: a central directory record uses ZIP64 fields (version-needed 45 in
byte 6, sizes and local-header offset capped at 0xffffffff, a 28-byte ZIP64
extended information extra field carrying the true values) exactly when
`forceZip64Format` is set or one of uncompressedSize, compressedSize,
relativeOffsetOfLocalHeader exceeds 0xfffffffe; otherwise it uses the normal
32-bit fields with version-needed 20 and no extra field. -/
theorem c1_central_directory_record_zip64_exact (entry : Entry) :
    ((getCentralDirectoryRecord entry).getD 6 0 = 45
      ↔ (entry.forceZip64Format = true
          ∨ 0xfffffffe < entry.uncompressedSize
          ∨ 0xfffffffe < entry.compressedSize
          ∨ 0xfffffffe < entry.relativeOffsetOfLocalHeader))
    ∧ ((entry.forceZip64Format = true
          ∨ 0xfffffffe < entry.uncompressedSize
          ∨ 0xfffffffe < entry.compressedSize
          ∨ 0xfffffffe < entry.relativeOffsetOfLocalHeader) →
        getCentralDirectoryRecord entry
          = writeUInt32LE 0x02014b50
            ++ writeUInt16LE VERSION_MADE_BY
            ++ writeUInt16LE 45
            ++ writeUInt16LE (if entry.crcAndFileSizeKnown then FILE_NAME_IS_UTF8
                else FILE_NAME_IS_UTF8 ||| UNKNOWN_CRC32_AND_FILE_SIZES)
            ++ writeUInt16LE (if entry.compress then 8 else 0)
            ++ writeUInt16LE entry.lastModFileTime
            ++ writeUInt16LE entry.lastModFileDate
            ++ writeUInt32LE entry.crc32
            ++ writeUInt32LE 0xffffffff
            ++ writeUInt32LE 0xffffffff
            ++ writeUInt16LE entry.utf8FileName.length
            ++ writeUInt16LE 28
            ++ writeUInt16LE entry.fileComment.length
            ++ writeUInt16LE 0
            ++ writeUInt16LE 0
            ++ writeUInt32LE entry.externalFileAttributes
            ++ writeUInt32LE 0xffffffff
            ++ entry.utf8FileName
            ++ (writeUInt16LE 0x0001 ++ writeUInt16LE 24
                ++ writeUInt64LE entry.uncompressedSize
                ++ writeUInt64LE entry.compressedSize
                ++ writeUInt64LE entry.relativeOffsetOfLocalHeader)
            ++ entry.fileComment)
    ∧ (¬ (entry.forceZip64Format = true
          ∨ 0xfffffffe < entry.uncompressedSize
          ∨ 0xfffffffe < entry.compressedSize
          ∨ 0xfffffffe < entry.relativeOffsetOfLocalHeader) →
        getCentralDirectoryRecord entry
          = writeUInt32LE 0x02014b50
            ++ writeUInt16LE VERSION_MADE_BY
            ++ writeUInt16LE 20
            ++ writeUInt16LE (if entry.crcAndFileSizeKnown then FILE_NAME_IS_UTF8
                else FILE_NAME_IS_UTF8 ||| UNKNOWN_CRC32_AND_FILE_SIZES)
            ++ writeUInt16LE (if entry.compress then 8 else 0)
            ++ writeUInt16LE entry.lastModFileTime
            ++ writeUInt16LE entry.lastModFileDate
            ++ writeUInt32LE entry.crc32
            ++ writeUInt32LE entry.compressedSize
            ++ writeUInt32LE entry.uncompressedSize
            ++ writeUInt16LE entry.utf8FileName.length
            ++ writeUInt16LE 0
            ++ writeUInt16LE entry.fileComment.length
            ++ writeUInt16LE 0
            ++ writeUInt16LE 0
            ++ writeUInt32LE entry.externalFileAttributes
            ++ writeUInt32LE entry.relativeOffsetOfLocalHeader
            ++ entry.utf8FileName
            ++ entry.fileComment) := by
  have hiff := entryUseZip64Format_iff entry
  refine ⟨?_, ?_, ?_⟩
  · by_cases hz : entryUseZip64Format entry = true
    · rw [← hiff]
      refine ⟨fun _ => hz, fun _ => ?_⟩
      rw [getCentralDirectoryRecord_zip64 entry hz]
      simp [writeUInt16LE, writeUInt32LE, VERSION_MADE_BY]
    · have hz2 : entryUseZip64Format entry = false := by
        revert hz; cases entryUseZip64Format entry <;> simp
      rw [← hiff]
      refine ⟨fun h45 => ?_, fun h => by rw [h] at hz2; cases hz2⟩
      exfalso
      rw [getCentralDirectoryRecord_normal entry hz2] at h45
      revert h45
      simp [writeUInt16LE, writeUInt32LE, VERSION_MADE_BY]
  · intro h
    exact getCentralDirectoryRecord_zip64 entry (hiff.mpr h)
  · intro h
    have hz2 : entryUseZip64Format entry = false := by
      cases hz : entryUseZip64Format entry
      · rfl
      · exact absurd (hiff.mp hz) h
    exact getCentralDirectoryRecord_normal entry hz2

/-- An entry whose uncompressed size is 0xffffffff (just over the threshold). -/
def entryZip64Example : Entry :=
  ⟨[], [], 0, 0, 0, 0xffffffff, 0, 0, false, false, false, 0⟩

/-- An entry whose uncompressed size is exactly 0xfffffffe (at the threshold). -/
def entryNormalExample : Entry :=
  ⟨[], [], 0, 0, 0, 0xfffffffe, 0, 0, false, false, false, 0⟩

/-- Witness for C1: uncompressedSize 0xffffffff yields version-needed 45,
uncompressedSize 0xfffffffe yields version-needed 20. -/
theorem c1_central_directory_record_zip64_exact_witness :
    (getCentralDirectoryRecord entryZip64Example).getD 6 0 = 45
    ∧ (getCentralDirectoryRecord entryNormalExample).getD 6 0 = 20 := by
  constructor
  · exact (c1_central_directory_record_zip64_exact entryZip64Example).1.mpr
      (Or.inr (Or.inl (by decide)))
  · have h := (c1_central_directory_record_zip64_exact entryNormalExample).2.2 (by decide)
    rw [h]; rfl

/-- The record object assembled by `addCentralDirectoryRecord` and consumed by
`getEndOfCentralDirectoryRecord`. -/
structure EocdRecord where
  entriesCount : Nat
  outputStreamCursor : Nat
  offsetOfStartOfCentralDirectory : Nat
  comment : List Nat
  forceZip64Format : Bool

/-- The `needZip64Format` condition accumulated across the three threshold
checks in `getEndOfCentralDirectoryRecord`. -/
def eocdrNeedZip64Format (r : EocdRecord) : Bool :=
  r.forceZip64Format
    || decide (r.entriesCount ≥ 0xffff)
    || decide (r.outputStreamCursor - r.offsetOfStartOfCentralDirectory ≥ 0xffffffff)
    || decide (r.offsetOfStartOfCentralDirectory ≥ 0xffffffff)

def getEndOfCentralDirectoryRecord (r : EocdRecord) : List Nat :=
  let normalEntriesLength :=
    if r.forceZip64Format || decide (r.entriesCount ≥ 0xffff) then 0xffff
    else r.entriesCount
  let sizeOfCentralDirectory :=
    r.outputStreamCursor - r.offsetOfStartOfCentralDirectory
  let normalSizeOfCentralDirectory :=
    if r.forceZip64Format || decide (sizeOfCentralDirectory ≥ 0xffffffff) then 0xffffffff
    else sizeOfCentralDirectory
  let normalOffsetOfStartOfCentralDirectory :=
    if r.forceZip64Format || decide (r.offsetOfStartOfCentralDirectory ≥ 0xffffffff) then
      0xffffffff
    else r.offsetOfStartOfCentralDirectory
  let eocdrBuffer :=
    writeUInt32LE 0x06054b50
      ++ writeUInt16LE 0
      ++ writeUInt16LE 0
      ++ writeUInt16LE normalEntriesLength
      ++ writeUInt16LE normalEntriesLength
      ++ writeUInt32LE normalSizeOfCentralDirectory
      ++ writeUInt32LE normalOffsetOfStartOfCentralDirectory
      ++ writeUInt16LE r.comment.length
      ++ r.comment
  if eocdrNeedZip64Format r = false then eocdrBuffer
  else
    (writeUInt32LE 0x06064b50
        ++ writeUInt64LE (ZIP64_END_OF_CENTRAL_DIRECTORY_RECORD_SIZE - 12)
        ++ writeUInt16LE VERSION_MADE_BY
        ++ writeUInt16LE VERSION_NEEDED_TO_EXTRACT_ZIP64
        ++ writeUInt32LE 0
        ++ writeUInt32LE 0
        ++ writeUInt64LE r.entriesCount
        ++ writeUInt64LE r.entriesCount
        ++ writeUInt64LE sizeOfCentralDirectory
        ++ writeUInt64LE r.offsetOfStartOfCentralDirectory)
      ++ (writeUInt32LE 0x07064b50
        ++ writeUInt32LE 0
        ++ writeUInt64LE r.outputStreamCursor
        ++ writeUInt32LE 1)
      ++ eocdrBuffer

/-- The classic-only shape of the end-of-central-directory output. -/
theorem getEndOfCentralDirectoryRecord_normal (r : EocdRecord)
    (hz : eocdrNeedZip64Format r = false) :
    getEndOfCentralDirectoryRecord r
      = writeUInt32LE 0x06054b50
        ++ writeUInt16LE 0
        ++ writeUInt16LE 0
        ++ writeUInt16LE r.entriesCount
        ++ writeUInt16LE r.entriesCount
        ++ writeUInt32LE (r.outputStreamCursor - r.offsetOfStartOfCentralDirectory)
        ++ writeUInt32LE r.offsetOfStartOfCentralDirectory
        ++ writeUInt16LE r.comment.length
        ++ r.comment := by
  have h1 : (r.forceZip64Format || decide (r.entriesCount ≥ 0xffff)) = false := by
    revert hz
    simp [eocdrNeedZip64Format, Bool.or_eq_false_iff]
    tauto
  have h2 : (r.forceZip64Format
      || decide (r.outputStreamCursor - r.offsetOfStartOfCentralDirectory ≥ 0xffffffff))
      = false := by
    revert hz
    simp [eocdrNeedZip64Format, Bool.or_eq_false_iff]
    tauto
  have h3 : (r.forceZip64Format || decide (r.offsetOfStartOfCentralDirectory ≥ 0xffffffff))
      = false := by
    revert hz
    simp [eocdrNeedZip64Format, Bool.or_eq_false_iff]
    tauto
  simp only [getEndOfCentralDirectoryRecord, hz, h1, h2, h3, if_false, if_true,
    Bool.false_eq_true]

/-- The ZIP64 shape of the end-of-central-directory output: 56-byte ZIP64 end
record, then the 20-byte locator, then the classic record with capped fields. -/
theorem getEndOfCentralDirectoryRecord_zip64 (r : EocdRecord)
    (hz : eocdrNeedZip64Format r = true) :
    getEndOfCentralDirectoryRecord r
      = (writeUInt32LE 0x06064b50
          ++ writeUInt64LE 44
          ++ writeUInt16LE VERSION_MADE_BY
          ++ writeUInt16LE 45
          ++ writeUInt32LE 0
          ++ writeUInt32LE 0
          ++ writeUInt64LE r.entriesCount
          ++ writeUInt64LE r.entriesCount
          ++ writeUInt64LE (r.outputStreamCursor - r.offsetOfStartOfCentralDirectory)
          ++ writeUInt64LE r.offsetOfStartOfCentralDirectory)
        ++ (writeUInt32LE 0x07064b50
          ++ writeUInt32LE 0
          ++ writeUInt64LE r.outputStreamCursor
          ++ writeUInt32LE 1)
        ++ (writeUInt32LE 0x06054b50
          ++ writeUInt16LE 0
          ++ writeUInt16LE 0
          ++ writeUInt16LE (if r.forceZip64Format || decide (r.entriesCount ≥ 0xffff)
              then 0xffff else r.entriesCount)
          ++ writeUInt16LE (if r.forceZip64Format || decide (r.entriesCount ≥ 0xffff)
              then 0xffff else r.entriesCount)
          ++ writeUInt32LE (if r.forceZip64Format
              || decide (r.outputStreamCursor - r.offsetOfStartOfCentralDirectory ≥ 0xffffffff)
              then 0xffffffff
              else r.outputStreamCursor - r.offsetOfStartOfCentralDirectory)
          ++ writeUInt32LE (if r.forceZip64Format
              || decide (r.offsetOfStartOfCentralDirectory ≥ 0xffffffff)
              then 0xffffffff else r.offsetOfStartOfCentralDirectory)
          ++ writeUInt16LE r.comment.length
          ++ r.comment) := by
  simp only [getEndOfCentralDirectoryRecord, hz, Bool.true_eq_false, if_false]
  simp [VERSION_NEEDED_TO_EXTRACT_ZIP64, ZIP64_END_OF_CENTRAL_DIRECTORY_RECORD_SIZE]

theorem eocdrNeedZip64Format_iff (r : EocdRecord) :
    eocdrNeedZip64Format r = true
      ↔ (r.forceZip64Format = true
          ∨ 0xffff ≤ r.entriesCount
          ∨ 0xffffffff ≤ r.outputStreamCursor - r.offsetOfStartOfCentralDirectory
          ∨ 0xffffffff ≤ r.offsetOfStartOfCentralDirectory) := by
  simp [eocdrNeedZip64Format, Bool.or_eq_true, decide_eq_true_iff, or_assoc]

/-- A finalize state whose central directory size is exactly 0xfffffffe. -/
def eocdNormalExample : EocdRecord := ⟨0, 0xfffffffe, 0, [], false⟩

/-- A finalize state whose central directory size is exactly 0xffffffff. -/
def eocdZip64Example : EocdRecord := ⟨0, 0xffffffff, 0, [], false⟩

/-- C2 counterexample: a central-directory size of exactly 0xfffffffe (claimed
to trigger ZIP64) yields the plain 22-byte classic end record with the classic
signature, not the ZIP64 variant (which would be 98 bytes). -/
theorem c2_counterexample_size_fffffffe_is_normal :
    eocdNormalExample.outputStreamCursor
        - eocdNormalExample.offsetOfStartOfCentralDirectory = 0xfffffffe
    ∧ (getEndOfCentralDirectoryRecord eocdNormalExample).take 4
        = writeUInt32LE 0x06054b50
    ∧ (getEndOfCentralDirectoryRecord eocdNormalExample).length
        = END_OF_CENTRAL_DIRECTORY_RECORD_SIZE := by
  decide

/-- C2 (amended): the end-of-central-directory structure switches to the ZIP64
variant (ZIP64 end record + locator prepended) exactly when `forceZip64Format`
is set, the entry count is at least 0xffff, the central-directory byte size is
at least 0xffffffff, or the central-directory start offset is at least
0xffffffff; a central-directory size of exactly 0xfffffffe does not trigger
ZIP64.  The classic-only output is 22 bytes plus the comment; the ZIP64 output
prepends the 56-byte ZIP64 end record and the 20-byte locator. -/
theorem c2_end_of_central_directory_zip64_exact (r : EocdRecord) :
    ((getEndOfCentralDirectoryRecord r).take 4 = writeUInt32LE 0x06064b50
      ↔ (r.forceZip64Format = true
          ∨ 0xffff ≤ r.entriesCount
          ∨ 0xffffffff ≤ r.outputStreamCursor - r.offsetOfStartOfCentralDirectory
          ∨ 0xffffffff ≤ r.offsetOfStartOfCentralDirectory))
    ∧ ((getEndOfCentralDirectoryRecord r).take 4 ≠ writeUInt32LE 0x06064b50 →
        (getEndOfCentralDirectoryRecord r).length
          = END_OF_CENTRAL_DIRECTORY_RECORD_SIZE + r.comment.length)
    ∧ ((getEndOfCentralDirectoryRecord r).take 4 = writeUInt32LE 0x06064b50 →
        (getEndOfCentralDirectoryRecord r).length
          = ZIP64_END_OF_CENTRAL_DIRECTORY_RECORD_SIZE
            + ZIP64_END_OF_CENTRAL_DIRECTORY_LOCATOR_SIZE
            + END_OF_CENTRAL_DIRECTORY_RECORD_SIZE
            + r.comment.length) := by
  have hiff := eocdrNeedZip64Format_iff r
  by_cases hz : eocdrNeedZip64Format r = true
  · have hs := getEndOfCentralDirectoryRecord_zip64 r hz
    have htake : (getEndOfCentralDirectoryRecord r).take 4 = writeUInt32LE 0x06064b50 := by
      rw [hs]; rfl
    refine ⟨⟨fun _ => hiff.mp hz, fun _ => htake⟩, fun hne => absurd htake hne, fun _ => ?_⟩
    rw [hs]
    simp [writeUInt16LE, writeUInt32LE, writeUInt64LE,
      END_OF_CENTRAL_DIRECTORY_RECORD_SIZE, ZIP64_END_OF_CENTRAL_DIRECTORY_RECORD_SIZE,
      ZIP64_END_OF_CENTRAL_DIRECTORY_LOCATOR_SIZE]
    omega
  · have hz2 : eocdrNeedZip64Format r = false := by
      revert hz; cases eocdrNeedZip64Format r <;> simp
    have hs := getEndOfCentralDirectoryRecord_normal r hz2
    have htake : (getEndOfCentralDirectoryRecord r).take 4 = writeUInt32LE 0x06054b50 := by
      rw [hs]; rfl
    have hne : (getEndOfCentralDirectoryRecord r).take 4 ≠ writeUInt32LE 0x06064b50 := by
      rw [htake]; decide
    refine ⟨⟨fun h => absurd h hne, fun hcond => absurd (hiff.mpr hcond) hz⟩,
      fun _ => ?_, fun h => absurd h hne⟩
    rw [hs]
    simp [writeUInt16LE, writeUInt32LE, END_OF_CENTRAL_DIRECTORY_RECORD_SIZE]
    omega

/-- Witness for C2 (amended): central-directory size 0xffffffff triggers the
ZIP64 variant (98 bytes), size 0xfffffffe stays classic (22 bytes). -/
theorem c2_end_of_central_directory_zip64_exact_witness :
    (getEndOfCentralDirectoryRecord eocdZip64Example).take 4 = writeUInt32LE 0x06064b50
    ∧ (getEndOfCentralDirectoryRecord eocdZip64Example).length = 98
    ∧ (getEndOfCentralDirectoryRecord eocdNormalExample).length = 22 := by
  have h1 := (c2_end_of_central_directory_zip64_exact eocdZip64Example).1.mpr
    (Or.inr (Or.inr (Or.inl (by decide))))
  refine ⟨h1, ?_, ?_⟩
  · have h2 := (c2_end_of_central_directory_zip64_exact eocdZip64Example).2.2 h1
    simpa using h2
  · have h3 := (c2_end_of_central_directory_zip64_exact eocdNormalExample).2.1 (by decide)
    simpa using h3

def eocdrSignatureBuffer : List Nat := [0x50, 0x4b, 0x05, 0x06]

/-- Does `l` start with the byte sequence `pat`? -/
def startsWithSeq : List Nat → List Nat → Bool
  | _, [] => true
  | [], _ :: _ => false
  | a :: as, b :: bs => a == b && startsWithSeq as bs

/-- Model of Node `buffer.includes(pat)`: `pat` occurs contiguously in `l`. -/
def bufferIncludes : List Nat → List Nat → Bool
  | [], pat => startsWithSeq [] pat
  | a :: rest, pat => startsWithSeq (a :: rest) pat || bufferIncludes rest pat

theorem startsWithSeq_iff (pat l : List Nat) :
    startsWithSeq l pat = true ↔ ∃ rest, l = pat ++ rest := by
  induction pat generalizing l with
  | nil => simp [startsWithSeq]
  | cons b bs ih =>
    cases l with
    | nil => simp [startsWithSeq]
    | cons a as =>
      simp [startsWithSeq, ih, List.cons_eq_cons, and_assoc]

theorem bufferIncludes_iff (l pat : List Nat) :
    bufferIncludes l pat = true ↔ ∃ pre post, l = pre ++ (pat ++ post) := by
  induction l with
  | nil =>
    simp only [bufferIncludes, startsWithSeq_iff]
    constructor
    · rintro ⟨rest, h⟩
      exact ⟨[], rest, by simpa using h⟩
    · rintro ⟨pre, post, h⟩
      rcases List.append_eq_nil.mp h.symm with ⟨_, h2⟩
      exact ⟨post, h2.symm⟩
  | cons a rest ih =>
    simp only [bufferIncludes, Bool.or_eq_true, startsWithSeq_iff, ih]
    constructor
    · rintro (⟨r2, h⟩ | ⟨pre, post, h⟩)
      · exact ⟨[], r2, by simpa using h⟩
      · exact ⟨a :: pre, post, by simp [h]⟩
    · rintro ⟨pre, post, h⟩
      cases pre with
      | nil => exact Or.inl ⟨post, by simpa using h⟩
      | cons a2 pre2 =>
        rcases List.cons_eq_cons.mp h with ⟨_, h2⟩
        exact Or.inr ⟨pre2, post, h2⟩

/-- The archive-comment validation performed synchronously in
`addCentralDirectoryRecord` (before the finalize task is queued). -/
def checkArchiveComment (comment : List Nat) : Except String (List Nat) :=
  if comment.length > 0xffff then .error "comment is too large"
  else if bufferIncludes comment eocdrSignatureBuffer then
    .error "comment contains end of central directory record signature"
  else .ok comment

/-- The per-entry fileComment validation performed in the `Entry`
constructor: only the length is checked. -/
def checkFileComment (fileComment : List Nat) : Except String (List Nat) :=
  if fileComment.length > 0xffff then .error "File comment is too large"
  else .ok fileComment

/-- C3 counterexample: a per-entry fileComment consisting exactly of the
end-of-central-directory signature bytes 50 4B 05 06 is accepted by the
`Entry` constructor, although the claim says it is rejected. -/
theorem c3_counterexample_file_comment_signature_accepted :
    checkFileComment [0x50, 0x4b, 0x05, 0x06] = .ok [0x50, 0x4b, 0x05, 0x06]
    ∧ bufferIncludes [0x50, 0x4b, 0x05, 0x06] eocdrSignatureBuffer = true := by
  exact ⟨rfl, by decide⟩

/-- C3 (amended): the archive comment supplied at finalize is rejected exactly
when it exceeds 0xffff bytes or contains the 4-byte end-of-central-directory
signature; a per-entry fileComment is rejected exactly when it exceeds 0xffff
bytes — the signature check is not applied to per-entry fileComments. -/
theorem c3_comment_validation (c : List Nat) :
    ((checkArchiveComment c).isOk = false
      ↔ (0xffff < c.length ∨ ∃ pre post, c = pre ++ (eocdrSignatureBuffer ++ post)))
    ∧ ((checkFileComment c).isOk = false ↔ 0xffff < c.length) := by
  constructor
  · rw [checkArchiveComment]
    by_cases h1 : 0xffff < c.length
    · simp [h1, Except.isOk, Except.toBool]
    · by_cases h2 : bufferIncludes c eocdrSignatureBuffer = true
      · simp [h1, h2, Except.isOk, Except.toBool]
        exact (bufferIncludes_iff c eocdrSignatureBuffer).mp h2
      · have h2f : bufferIncludes c eocdrSignatureBuffer = false := by
          revert h2; cases bufferIncludes c eocdrSignatureBuffer <;> simp
        simp [h1, h2f, Except.isOk, Except.toBool]
        intro pre post h
        exact absurd ((bufferIncludes_iff c eocdrSignatureBuffer).mpr ⟨pre, post, h⟩)
          (by simp [h2f])
  · rw [checkFileComment]
    by_cases h1 : 0xffff < c.length <;> simp [h1, Except.isOk, Except.toBool]

/-- Witness for C3 (amended): the archive comment consisting of the signature
bytes is rejected, and an empty comment is accepted by both checks. -/
theorem c3_comment_validation_witness :
    (checkArchiveComment [0x50, 0x4b, 0x05, 0x06]).isOk = false
    ∧ (checkFileComment ([] : List Nat)).isOk = true := by
  constructor
  · exact (c3_comment_validation [0x50, 0x4b, 0x05, 0x06]).1.mpr
      (Or.inr ⟨[], [], by decide⟩)
  · have h := (c3_comment_validation ([] : List Nat)).2
    revert h
    cases hv : (checkFileComment ([] : List Nat)).isOk
    · intro h; exact absurd (h.mp rfl) (by decide)
    · intro _; rfl

/-- The backslash-to-forward-slash replacement at the top of
`validateMetadataPath`. -/
def replaceBackslashes (p : List Char) : List Char :=
  p.map fun c => if c = '\\' then '/' else c

/-- Model of the regex test `^[a-zA-Z]:`. -/
def startsWithDriveLetter : List Char → Bool
  | c :: d :: _ =>
    ((decide (97 ≤ c.toNat) && decide (c.toNat ≤ 122))
      || (decide (65 ≤ c.toNat) && decide (c.toNat ≤ 90))) && d == ':'
  | _ => false

/-- Model of the regex test `^\/`. -/
def startsWithSlash : List Char → Bool
  | c :: _ => c == '/'
  | [] => false

/-- Model of the regex test `\/$`. -/
def endsWithSlash (p : List Char) : Bool :=
  match p.getLast? with
  | some c => c == '/'
  | none => false

def validateMetadataPath (metadataPath : List Char) (isDirectory : Bool) :
    Except String (List Char) :=
  if metadataPath = [] then .error "empty metadataPath"
  else
    let p := replaceBackslashes metadataPath
    if startsWithDriveLetter p || startsWithSlash p then .error "absolute path"
    else if (p.splitOn '/').contains ['.', '.'] then .error "invalid relative path"
    else
      let looksLikeDirectory := endsWithSlash p
      if isDirectory then
        if looksLikeDirectory = false then .ok (p ++ ['/']) else .ok p
      else if looksLikeDirectory then .error "file path cannot end with a slash"
      else .ok p

theorem validateMetadataPath_error_iff (metadataPath : List Char) (isDirectory : Bool) :
    (validateMetadataPath metadataPath isDirectory).isOk = false
      ↔ (metadataPath = []
          ∨ startsWithDriveLetter (replaceBackslashes metadataPath) = true
          ∨ startsWithSlash (replaceBackslashes metadataPath) = true
          ∨ ['.', '.'] ∈ (replaceBackslashes metadataPath).splitOn '/'
          ∨ (isDirectory = false ∧ endsWithSlash (replaceBackslashes metadataPath) = true)) := by
  by_cases h0 : metadataPath = []
  · simp [validateMetadataPath, h0, Except.isOk, Except.toBool]
  · cases hDrive : startsWithDriveLetter (replaceBackslashes metadataPath)
      <;> cases hSlash : startsWithSlash (replaceBackslashes metadataPath)
      <;> by_cases hDots : ['.', '.'] ∈ (replaceBackslashes metadataPath).splitOn '/'
      <;> cases hEnd : endsWithSlash (replaceBackslashes metadataPath)
      <;> cases isDirectory
      <;> simp [validateMetadataPath, h0, hDrive, hSlash, hDots, hEnd,
            Except.isOk, Except.toBool]

theorem validateMetadataPath_dir_ok (metadataPath : List Char) (r : List Char)
    (h : validateMetadataPath metadataPath true = .ok r) :
    r = (if endsWithSlash (replaceBackslashes metadataPath) = true
        then replaceBackslashes metadataPath
        else replaceBackslashes metadataPath ++ ['/']) := by
  by_cases h0 : metadataPath = []
  · simp [validateMetadataPath, h0] at h
  · cases hDrive : startsWithDriveLetter (replaceBackslashes metadataPath)
      <;> cases hSlash : startsWithSlash (replaceBackslashes metadataPath)
      <;> by_cases hDots : ['.', '.'] ∈ (replaceBackslashes metadataPath).splitOn '/'
      <;> cases hEnd : endsWithSlash (replaceBackslashes metadataPath)
      <;> simp [validateMetadataPath, h0, hDrive, hSlash, hDots, hEnd] at h
      <;> simp [hEnd, h.symm]

theorem validateMetadataPath_file_ok (metadataPath : List Char) (r : List Char)
    (h : validateMetadataPath metadataPath false = .ok r) :
    r = replaceBackslashes metadataPath
      ∧ endsWithSlash (replaceBackslashes metadataPath) = false := by
  by_cases h0 : metadataPath = []
  · simp [validateMetadataPath, h0] at h
  · cases hDrive : startsWithDriveLetter (replaceBackslashes metadataPath)
      <;> cases hSlash : startsWithSlash (replaceBackslashes metadataPath)
      <;> by_cases hDots : ['.', '.'] ∈ (replaceBackslashes metadataPath).splitOn '/'
      <;> cases hEnd : endsWithSlash (replaceBackslashes metadataPath)
      <;> simp [validateMetadataPath, h0, hDrive, hSlash, hDots, hEnd] at h
      <;> simp [hEnd, h.symm]

/-- C7: path validation replaces every backslash by a forward slash, rejects
the empty path, drive-letter and leading-slash paths, any path with a `..`
segment, and (for files) a trailing slash; a directory path gets a trailing
slash appended when absent, and a file path is returned unchanged (after
backslash replacement). -/
theorem c7_validate_metadata_path (metadataPath : List Char) (isDirectory : Bool) :
    ((validateMetadataPath metadataPath isDirectory).isOk = false
      ↔ (metadataPath = []
          ∨ startsWithDriveLetter (replaceBackslashes metadataPath) = true
          ∨ startsWithSlash (replaceBackslashes metadataPath) = true
          ∨ ['.', '.'] ∈ (replaceBackslashes metadataPath).splitOn '/'
          ∨ (isDirectory = false ∧ endsWithSlash (replaceBackslashes metadataPath) = true)))
    ∧ (∀ r, validateMetadataPath metadataPath true = .ok r →
        r = (if endsWithSlash (replaceBackslashes metadataPath) = true
            then replaceBackslashes metadataPath
            else replaceBackslashes metadataPath ++ ['/']))
    ∧ (∀ r, validateMetadataPath metadataPath false = .ok r →
        r = replaceBackslashes metadataPath
          ∧ endsWithSlash (replaceBackslashes metadataPath) = false) :=
  ⟨validateMetadataPath_error_iff metadataPath isDirectory,
    fun r h => validateMetadataPath_dir_ok metadataPath r h,
    fun r h => validateMetadataPath_file_ok metadataPath r h⟩

/-- Witness for C7: a directory add of `a/b` stores `a/b/`; `a/b` is accepted
unchanged as a file; `/a`, `C:\f` and `a/../b` are rejected. -/
theorem c7_validate_metadata_path_witness :
    validateMetadataPath ['a', '/', 'b'] true = .ok ['a', '/', 'b', '/']
    ∧ validateMetadataPath ['a', '/', 'b'] false = .ok ['a', '/', 'b']
    ∧ (validateMetadataPath ['/', 'a'] false).isOk = false
    ∧ (validateMetadataPath ['C', ':', '\\', 'f'] false).isOk = false
    ∧ (validateMetadataPath ['a', '/', '.', '.', '/', 'b'] false).isOk = false := by
  refine ⟨rfl, rfl, ?_, ?_, ?_⟩
  · exact (c7_validate_metadata_path ['/', 'a'] false).1.mpr
      (Or.inr (Or.inr (Or.inl (by decide))))
  · exact (c7_validate_metadata_path ['C', ':', '\\', 'f'] false).1.mpr
      (Or.inr (Or.inl (by decide)))
  · exact (c7_validate_metadata_path ['a', '/', '.', '.', '/', 'b'] false).1.mpr
      (Or.inr (Or.inr (Or.inr (Or.inl (by decide)))))

/-- UTF-8 byte length of one scalar value (Node `Buffer.from(s)` length). -/
def utf8ByteLength (c : Char) : Nat :=
  if c.toNat < 0x80 then 1
  else if c.toNat < 0x800 then 2
  else if c.toNat < 0x10000 then 3
  else 4

def utf8Length (s : List Char) : Nat := (s.map utf8ByteLength).sum

/-- The throwing checks of the `Entry` constructor, in source order:
file-name byte length, then mode, then fileComment length. -/
def entryConstructorChecks (metadataPath : List Char) (mode : Nat)
    (fileComment : Option (List Nat)) : Except String Unit :=
  if utf8Length metadataPath > 0xffff then .error "utf8 file name too long"
  else if mode &&& 0xffff ≠ mode then .error "invalid mode"
  else
    match fileComment with
    | none => .ok ()
    | some c =>
      if c.length > 0xffff then .error "File comment is too large"
      else .ok ()

/-- The mutable archive state: whether `this.queue` still exists (finalize
deletes it), whether the promise chain has rejected (and with what error),
and the output cursor and bytes pushed so far. -/
structure QState where
  queueOpen : Bool
  poisonError : Option String
  outputStreamCursor : Nat
  output : List Nat

def qInit : QState := ⟨true, none, 0, []⟩

/-- Source `writeBuffer`: push the bytes and advance the cursor. -/
def writeBuffer (s : QState) (buffer : List Nat) : QState :=
  { s with
    output := s.output ++ buffer
    outputStreamCursor := s.outputStreamCursor + buffer.length }

/-- One add-operation against the queue.  The outer `Except` is the
synchronous phase (path/buffer validation, then `addEntry`'s finalized
check); the inner `Except` is the queued task (`callback` plus the writes).
Returns (synchronous result, promise result, new state): a synchronous error
leaves the state untouched; a queued-task error rejects the promise chain,
poisoning every later task with the same error. -/
def runOp (s : QState) (op : Except String (Except String (List Nat))) :
    Except String Unit × Except String Unit × QState :=
  match op with
  | .error e => (.error e, .error e, s)
  | .ok task =>
    if s.queueOpen = false then
      (.error "Zip file has been finalized", .error "Zip file has been finalized", s)
    else
      match s.poisonError with
      | some e0 => (.ok (), .error e0, s)
      | none =>
        match task with
        | .error e => (.ok (), .error e, { s with poisonError := some e })
        | .ok bytes => (.ok (), .ok (), writeBuffer s bytes)

/-- `addFile`: only path validation is synchronous; the stat and the
`FileEntry` construction happen inside the queued callback.  `payload`
abstracts the header/data/descriptor bytes the task writes. -/
def addFileOp (metadataPath : List Char) (statOk statIsFile : Bool) (mode : Nat)
    (fileComment : Option (List Nat)) (payload : List Nat) :
    Except String (Except String (List Nat)) :=
  (validateMetadataPath metadataPath false).map fun mp =>
    if statOk = false then .error "stat failed"
    else if statIsFile = false then .error "not a file"
    else (entryConstructorChecks mp mode fileComment).map fun _ => payload

/-- `addReadStream`: path validation and the `FileEntry` construction are
both synchronous, before the task is queued. -/
def addReadStreamOp (metadataPath : List Char) (mode : Nat)
    (fileComment : Option (List Nat)) (payload : List Nat) :
    Except String (Except String (List Nat)) :=
  (validateMetadataPath metadataPath false).bind fun mp =>
    (entryConstructorChecks mp mode fileComment).map fun _ =>
      Except.ok payload

/-- `addBuffer`: path validation and the buffer-size check are synchronous;
the `FileEntry` construction happens inside the queued callback (after the
deflate completes). -/
def addBufferOp (metadataPath : List Char) (bufferLength : Nat) (mode : Nat)
    (fileComment : Option (List Nat)) (compressedPayload : List Nat) :
    Except String (Except String (List Nat)) :=
  (validateMetadataPath metadataPath false).bind fun mp =>
    if bufferLength > 0x3fffffff then .error "buffer too large"
    else .ok ((entryConstructorChecks mp mode fileComment).map fun _ => compressedPayload)

/-- `addEmptyDirectory`: path validation is synchronous; the
`DirectoryEntry` construction happens inside the queued callback. -/
def addEmptyDirectoryOp (metadataPath : List Char) (mode : Nat)
    (fileComment : Option (List Nat)) (payload : List Nat) :
    Except String (Except String (List Nat)) :=
  (validateMetadataPath metadataPath true).map fun mp =>
    (entryConstructorChecks mp mode fileComment).map fun _ => payload

/-- `addCentralDirectoryRecord`: synchronous finalized check, then the
synchronous archive-comment validation, then the queued emit phase that
writes every central directory record followed by the end-of-central-
directory structure.  Returns the record object and the new state. -/
def addCentralDirectoryRecordCall (s : QState) (entries : List Entry)
    (forceZip64Format : Bool) (comment : Option (List Nat)) :
    Except String (EocdRecord × QState) :=
  if s.queueOpen = false then .error "Zip file has been finalized"
  else
    match (match comment with
      | none => Except.ok ([] : List Nat)
      | some c => checkArchiveComment c) with
    | .error e => .error e
    | .ok commentBytes =>
      match s.poisonError with
      | some e0 => .error e0
      | none =>
        let offsetOfStartOfCentralDirectory := s.outputStreamCursor
        let s2 := entries.foldl (fun st e => writeBuffer st (getCentralDirectoryRecord e)) s
        let record : EocdRecord :=
          ⟨entries.length, s2.outputStreamCursor, offsetOfStartOfCentralDirectory,
            commentBytes, forceZip64Format⟩
        let s3 := writeBuffer s2 (getEndOfCentralDirectoryRecord record)
        .ok (record, s3)

/-- `ZipFile.end` from index.js: run `addCentralDirectoryRecord`, then delete
the queue (`queueOpen := false`) and close the stream. -/
def endCall (s : QState) (entries : List Entry) (forceZip64Format : Bool)
    (comment : Option (List Nat)) : Except String (EocdRecord × QState) :=
  match addCentralDirectoryRecordCall s entries forceZip64Format comment with
  | .error e => .error e
  | .ok (record, s2) => .ok (record, { s2 with queueOpen := false })

/-- C4 counterexample: an oversized per-entry fileComment passed to
`addBuffer` is not raised synchronously (the synchronous phase succeeds) and
it does poison the archive: a subsequent valid `addBuffer` fails with the
same error. -/
theorem c4_counterexample_entry_error_is_async_and_poisons :
    (runOp qInit (addBufferOp ['a'] 3 33204 (some (List.replicate 65536 0)) [7])).1
        = .ok ()
    ∧ (runOp qInit (addBufferOp ['a'] 3 33204 (some (List.replicate 65536 0)) [7])).2.1
        = .error "File comment is too large"
    ∧ (runOp ((runOp qInit
          (addBufferOp ['a'] 3 33204 (some (List.replicate 65536 0)) [7])).2.2)
        (addBufferOp ['b'] 3 33204 none [8])).2.1
        = .error "File comment is too large" := by
  have key : ∀ c : List Nat, c.length = 65536 →
      entryConstructorChecks ['a'] 33204 (some c)
        = .error "File comment is too large" := by
    intro c hlen
    simp [entryConstructorChecks, utf8Length, utf8ByteLength, hlen]
    decide
  have hch := key (List.replicate 65536 0) (by rw [List.length_replicate])
  have hop : addBufferOp ['a'] 3 33204 (some (List.replicate 65536 0)) [7]
      = .ok (.error "File comment is too large") := by
    rw [addBufferOp]
    have hv : validateMetadataPath ['a'] false = .ok ['a'] := rfl
    rw [hv, show ((Except.ok ['a'] : Except String (List Char)).bind fun mp =>
        if (3 : Nat) > 0x3fffffff then .error "buffer too large"
        else .ok ((entryConstructorChecks mp 33204
            (some (List.replicate 65536 0))).map fun _ => [7]))
      = .ok ((entryConstructorChecks ['a'] 33204
          (some (List.replicate 65536 0))).map fun _ => ([7] : List Nat)) from rfl]
    rw [hch]
    rfl
  refine ⟨?_, ?_, ?_⟩
  · rw [hop]; rfl
  · rw [hop]; rfl
  · rw [hop]; rfl

/-- C4 (amended): synchronous validation errors (bad path for every add
operation, oversized buffer for `addBuffer`, and additionally name, comment
and mode errors for `addReadStream` only) are raised at call time, leave
the archive state unchanged and never poison it; but for `addFile`,
`addBuffer` and `addEmptyDirectory` the name/comment/mode validation of the
`Entry` constructor runs inside the queued task, so such an error surfaces
asynchronously and poisons the archive: subsequently queued operations fail
with the same error. -/
theorem c4_validation_timing (s : QState) (e : String)
    (task : Except String (List Nat)) :
    (runOp s (.error e) = (.error e, .error e, s))
    ∧ (∀ metadataPath mp mode fileComment payload,
        validateMetadataPath metadataPath false = .ok mp →
        entryConstructorChecks mp mode fileComment = .error e →
        addReadStreamOp metadataPath mode fileComment payload = .error e)
    ∧ (∀ metadataPath mp bufferLength mode fileComment payload,
        validateMetadataPath metadataPath false = .ok mp →
        bufferLength ≤ 0x3fffffff →
        entryConstructorChecks mp mode fileComment = .error e →
        addBufferOp metadataPath bufferLength mode fileComment payload
          = .ok (.error e))
    ∧ (∀ metadataPath mp mode fileComment payload,
        validateMetadataPath metadataPath false = .ok mp →
        entryConstructorChecks mp mode fileComment = .error e →
        addFileOp metadataPath true true mode fileComment payload = .ok (.error e))
    ∧ (∀ metadataPath mp mode fileComment payload,
        validateMetadataPath metadataPath true = .ok mp →
        entryConstructorChecks mp mode fileComment = .error e →
        addEmptyDirectoryOp metadataPath mode fileComment payload = .ok (.error e))
    ∧ (s.queueOpen = true → s.poisonError = none →
        runOp s (.ok (.error e)) = (.ok (), .error e, { s with poisonError := some e })
        ∧ runOp { s with poisonError := some e } (.ok task)
            = (.ok (), .error e, { s with poisonError := some e })) := by
  refine ⟨rfl, ?_, ?_, ?_, ?_, ?_⟩
  · intro metadataPath mp mode fileComment payload hv hc
    simp [addReadStreamOp, hv, hc, Except.bind, Except.map]
  · intro metadataPath mp bufferLength mode fileComment payload hv hb hc
    have hb2 : ¬ bufferLength > 0x3fffffff := by omega
    simp [addBufferOp, hv, hb2, hc, Except.bind, Except.map]
  · intro metadataPath mp mode fileComment payload hv hc
    simp [addFileOp, hv, hc, Except.map]
  · intro metadataPath mp mode fileComment payload hv hc
    simp [addEmptyDirectoryOp, hv, hc, Except.map]
  · intro hq hp
    constructor
    · simp [runOp, hq, hp]
    · simp [runOp, hq]

/-- Witness for C4 (amended): a concrete oversized fileComment makes
`addReadStream` fail synchronously, makes `addBuffer` fail asynchronously,
and the queued error poisons a later task. -/
theorem c4_validation_timing_witness :
    addReadStreamOp ['a'] 33204 (some (List.replicate 65536 0)) [7]
        = .error "File comment is too large"
    ∧ addBufferOp ['a'] 3 33204 (some (List.replicate 65536 0)) [7]
        = .ok (.error "File comment is too large")
    ∧ runOp qInit (.ok (.error "File comment is too large"))
        = (.ok (), .error "File comment is too large",
            { qInit with poisonError := some "File comment is too large" }) := by
  have key : ∀ c : List Nat, c.length = 65536 →
      entryConstructorChecks ['a'] 33204 (some c)
        = .error "File comment is too large" := by
    intro c hlen
    simp [entryConstructorChecks, utf8Length, utf8ByteLength, hlen]
    decide
  have hch := key (List.replicate 65536 0) (by rw [List.length_replicate])
  refine ⟨?_, ?_, ?_⟩
  · exact (c4_validation_timing qInit "File comment is too large" (.ok [])).2.1
      ['a'] ['a'] 33204 (some (List.replicate 65536 0)) [7] rfl hch
  · exact (c4_validation_timing qInit "File comment is too large" (.ok [])).2.2.1
      ['a'] ['a'] 3 33204 (some (List.replicate 65536 0)) [7] rfl (by omega) hch
  · exact ((c4_validation_timing qInit "File comment is too large" (.ok [])).2.2.2.2.2
      rfl rfl).1

/-- C8: once the archive is finalized (`queueOpen = false`), every add
operation whose synchronous validation passed and every further finalize
call fail immediately with the state error, the state (and hence the output
sink) is untouched, and a completed finalize indeed leaves the archive in
that state. -/
theorem c8_finalized_rejects_operations (s : QState) (h : s.queueOpen = false) :
    (∀ task : Except String (List Nat),
        runOp s (.ok task)
          = (.error "Zip file has been finalized",
              .error "Zip file has been finalized", s))
    ∧ (∀ entries forceZip64Format comment,
        addCentralDirectoryRecordCall s entries forceZip64Format comment
          = .error "Zip file has been finalized")
    ∧ (∀ entries forceZip64Format comment,
        endCall s entries forceZip64Format comment
          = .error "Zip file has been finalized")
    ∧ (∀ (s2 : QState) entries forceZip64Format comment record s3,
        endCall s2 entries forceZip64Format comment = .ok (record, s3) →
        s3.queueOpen = false) := by
  refine ⟨?_, ?_, ?_, ?_⟩
  · intro task; simp [runOp, h]
  · intro entries f c; simp [addCentralDirectoryRecordCall, h]
  · intro entries f c; simp [endCall, addCentralDirectoryRecordCall, h]
  · intro s2 entries f c record s3 hok
    rw [endCall] at hok
    cases hc : addCentralDirectoryRecordCall s2 entries f c with
    | error e => rw [hc] at hok; exact absurd hok (by simp)
    | ok p =>
      obtain ⟨rec0, st0⟩ := p
      rw [hc] at hok
      simp at hok
      rw [← hok.2]

/-- A state as left behind by a completed finalize. -/
def qFinalized : QState := ⟨false, none, 0, []⟩

/-- Witness for C8: on a finalized archive, a queued add and a second
finalize both fail with the state error and leave the state unchanged. -/
theorem c8_finalized_rejects_operations_witness :
    runOp qFinalized (.ok (.ok [9]))
        = (.error "Zip file has been finalized",
            .error "Zip file has been finalized", qFinalized)
    ∧ addCentralDirectoryRecordCall qFinalized [] false none
        = .error "Zip file has been finalized" :=
  ⟨(c8_finalized_rejects_operations qFinalized rfl).1 (.ok [9]),
    (c8_finalized_rejects_operations qFinalized rfl).2.1 [] false none⟩

/-- The size/CRC bookkeeping fields of an entry while its payload streams
through the pipeline (`writeEntryStream` plus the tail of `addEntry`). -/
structure PipelineEntry where
  compress : Bool
  crc32 : Option Nat
  uncompressedSize : Option Nat
  compressedSize : Option Nat

/-- `writeEntryStream`: the payload pipeline counts the raw bytes, deflates
(or passes through), counts the forwarded bytes, and on completion records
the CRC and reconciles the pre-declared uncompressed size.  `deflate` and
`crcOf` abstract zlib and buffer-crc32.  Returns the updated entry and the
number of bytes forwarded to the output. -/
def writeEntryStream (deflate : List Nat → List Nat) (crcOf : List Nat → Nat)
    (entry : PipelineEntry) (data : List Nat) :
    Except String (PipelineEntry × Nat) :=
  let uncompressedSize := data.length
  let outBytes := if entry.compress then deflate data else data
  let compressedSize := outBytes.length
  match entry.uncompressedSize with
  | none =>
    .ok ({ entry with
        crc32 := some (crcOf data)
        uncompressedSize := some uncompressedSize }, compressedSize)
  | some u =>
    if u = uncompressedSize then
      .ok ({ entry with crc32 := some (crcOf data) }, compressedSize)
    else .error "file data stream has unexpected number of bytes"

/-- The tail of `addEntry`: after `write()` resolves, the cursor delta is
the compressed size; reconcile it with a pre-declared value. -/
def finishEntryCompressedSize (entry : PipelineEntry) (cursorDelta : Nat) :
    Except String PipelineEntry :=
  match entry.compressedSize with
  | none => .ok { entry with compressedSize := some cursorDelta }
  | some cs =>
    if cursorDelta = cs then .ok entry
    else .error "Unexpected compressed size"

/-- C5: a pre-declared uncompressed size disagreeing with the streamed byte
count fails with a consistency error, otherwise the count is recorded; a
pre-declared compressed size disagreeing with the bytes actually forwarded
between the local header and the data descriptor fails with a consistency
error, otherwise the forwarded count is recorded. -/
theorem c5_declared_size_consistency (deflate : List Nat → List Nat)
    (crcOf : List Nat → Nat) (entry : PipelineEntry) (data : List Nat)
    (cursorDelta : Nat) :
    (∀ u, entry.uncompressedSize = some u → u ≠ data.length →
      writeEntryStream deflate crcOf entry data
        = .error "file data stream has unexpected number of bytes")
    ∧ (entry.uncompressedSize = some data.length →
      writeEntryStream deflate crcOf entry data
        = .ok ({ entry with crc32 := some (crcOf data) },
            (if entry.compress then deflate data else data).length))
    ∧ (entry.uncompressedSize = none →
      writeEntryStream deflate crcOf entry data
        = .ok ({ entry with
            crc32 := some (crcOf data)
            uncompressedSize := some data.length },
            (if entry.compress then deflate data else data).length))
    ∧ (∀ cs, entry.compressedSize = some cs → cursorDelta ≠ cs →
      finishEntryCompressedSize entry cursorDelta
        = .error "Unexpected compressed size")
    ∧ (entry.compressedSize = some cursorDelta →
      finishEntryCompressedSize entry cursorDelta = .ok entry)
    ∧ (entry.compressedSize = none →
      finishEntryCompressedSize entry cursorDelta
        = .ok { entry with compressedSize := some cursorDelta }) := by
  refine ⟨?_, ?_, ?_, ?_, ?_, ?_⟩
  · intro u hu hne
    simp [writeEntryStream, hu, hne]
  · intro hu
    simp [writeEntryStream, hu]
  · intro hu
    simp [writeEntryStream, hu]
  · intro cs hcs hne
    simp [finishEntryCompressedSize, hcs, hne]
  · intro hcs
    simp [finishEntryCompressedSize, hcs]
  · intro hcs
    simp [finishEntryCompressedSize, hcs]

/-- Witness for C5: concrete mismatches fail, concrete agreements record the
counts. -/
theorem c5_declared_size_consistency_witness :
    writeEntryStream (fun l => l) (fun _ => 7) ⟨false, none, some 3, none⟩ [1, 2]
        = .error "file data stream has unexpected number of bytes"
    ∧ writeEntryStream (fun l => l) (fun _ => 7) ⟨false, none, none, none⟩ [1, 2]
        = .ok (⟨false, some 7, some 2, none⟩, 2)
    ∧ finishEntryCompressedSize ⟨false, none, none, some 5⟩ 4
        = .error "Unexpected compressed size"
    ∧ finishEntryCompressedSize ⟨false, none, none, none⟩ 4
        = .ok ⟨false, none, none, some 4⟩ := by
  refine ⟨?_, ?_, ?_, ?_⟩
  · exact (c5_declared_size_consistency (fun l => l) (fun _ => 7)
      ⟨false, none, some 3, none⟩ [1, 2] 0).1 3 rfl (by decide)
  · exact (c5_declared_size_consistency (fun l => l) (fun _ => 7)
      ⟨false, none, none, none⟩ [1, 2] 0).2.2.1 rfl
  · exact (c5_declared_size_consistency (fun l => l) (fun _ => 7)
      ⟨false, none, none, some 5⟩ [] 4).2.2.2.1 5 rfl (by decide)
  · exact (c5_declared_size_consistency (fun l => l) (fun _ => 7)
      ⟨false, none, none, none⟩ [] 4).2.2.2.2.2 rfl

theorem writeBuffer_append (s : QState) (a b : List Nat) :
    writeBuffer (writeBuffer s a) b = writeBuffer s (a ++ b) := by
  cases s
  simp [writeBuffer, List.append_assoc, Nat.add_assoc]

theorem foldl_writeBuffer_records (entries : List Entry) (s : QState) :
    entries.foldl (fun st e => writeBuffer st (getCentralDirectoryRecord e)) s
      = writeBuffer s ((entries.map getCentralDirectoryRecord).flatten) := by
  induction entries generalizing s with
  | nil =>
    cases s
    simp [writeBuffer]
  | cons e rest ih =>
    simp only [List.foldl_cons, List.map_cons, List.flatten_cons]
    rw [ih, writeBuffer_append]

theorem getEndOfCentralDirectoryRecord_length_pos (r : EocdRecord) :
    0 < (getEndOfCentralDirectoryRecord r).length := by
  by_cases hz : eocdrNeedZip64Format r = true
  · rw [getEndOfCentralDirectoryRecord_zip64 r hz]
    simp [writeUInt32LE]
  · have hz2 : eocdrNeedZip64Format r = false := by
      revert hz; cases eocdrNeedZip64Format r <;> simp
    rw [getEndOfCentralDirectoryRecord_normal r hz2]
    simp [writeUInt32LE]

/-- C6 counterexample: finalizing an empty archive returns a record whose
`outputStreamCursor` is 0, while the final output cursor (after the 22-byte
end-of-central-directory record) is 22 — the returned value excludes the
end-of-central-directory structure. -/
theorem c6_counterexample_cursor_excludes_eocd :
    (addCentralDirectoryRecordCall qInit [] false none).toOption.map
        (fun p => (p.1.outputStreamCursor, p.2.outputStreamCursor))
      = some (0, 22) := by
  rfl

/-- C6 (amended): finalize returns the central-directory start offset, the
entry count, and a byte counter equal to the cursor after the central
directory records but before the end-of-central-directory structure (i.e.
the offset at which that structure begins); the final cursor additionally
includes the end-of-central-directory bytes, so the returned counter is
always strictly smaller than the true total. -/
theorem c6_finalize_record (s : QState) (entries : List Entry)
    (forceZip64Format : Bool) (record : EocdRecord) (s3 : QState)
    (hq : s.queueOpen = true) (hp : s.poisonError = none)
    (h : addCentralDirectoryRecordCall s entries forceZip64Format none
      = .ok (record, s3)) :
    record.offsetOfStartOfCentralDirectory = s.outputStreamCursor
    ∧ record.entriesCount = entries.length
    ∧ record.outputStreamCursor
        = s.outputStreamCursor + ((entries.map getCentralDirectoryRecord).flatten).length
    ∧ s3.outputStreamCursor
        = record.outputStreamCursor + (getEndOfCentralDirectoryRecord record).length
    ∧ s3.output = s.output ++ ((entries.map getCentralDirectoryRecord).flatten
        ++ getEndOfCentralDirectoryRecord record)
    ∧ record.outputStreamCursor < s3.outputStreamCursor := by
  rw [addCentralDirectoryRecordCall] at h
  rw [hq] at h
  simp only [Bool.true_eq_false, if_false, hp] at h
  rw [foldl_writeBuffer_records] at h
  simp only [Except.ok.injEq, Prod.mk.injEq] at h
  obtain ⟨hrec, hs3⟩ := h
  have h4 : s3.outputStreamCursor
      = record.outputStreamCursor + (getEndOfCentralDirectoryRecord record).length := by
    rw [← hrec, ← hs3]
    rfl
  refine ⟨?_, ?_, ?_, h4, ?_, ?_⟩
  · rw [← hrec]
  · rw [← hrec]
  · rw [← hrec]
    rfl
  · rw [← hs3, ← hrec]
    simp [writeBuffer, List.append_assoc]
  · rw [h4]
    exact Nat.lt_add_of_pos_right (getEndOfCentralDirectoryRecord_length_pos record)

/-- Witness for C6 (amended): the concrete empty-archive finalize. -/
theorem c6_finalize_record_witness :
    addCentralDirectoryRecordCall qInit [] false none
        = .ok (⟨0, 0, 0, [], false⟩,
            ⟨true, none, 22,
              [80, 75, 5, 6, 0, 0, 0, 0, 0, 0, 0, 0, 0, 0, 0, 0, 0, 0, 0, 0, 0, 0]⟩)
    ∧ (⟨0, 0, 0, [], false⟩ : EocdRecord).outputStreamCursor
        < (⟨true, none, 22,
            [80, 75, 5, 6, 0, 0, 0, 0, 0, 0, 0, 0, 0, 0, 0, 0, 0, 0, 0, 0, 0, 0]⟩
            : QState).outputStreamCursor := by
  constructor
  · rfl
  · exact (c6_finalize_record qInit [] false
      ⟨0, 0, 0, [], false⟩
      ⟨true, none, 22,
        [80, 75, 5, 6, 0, 0, 0, 0, 0, 0, 0, 0, 0, 0, 0, 0, 0, 0, 0, 0, 0, 0]⟩
      rfl rfl rfl).2.2.2.2.2

/-!
Ordering model.  Each queued task contributes one contiguous block of bytes
(local header, payload, data descriptor).  The promise chain built by
`addEntry` lets the preparation phases overlap in any order, but task `n`'s
emit phase runs only after task `n - 1`'s emit phase has completed and task
`n`'s own preparation is done.  `runSchedule` is an event-loop model: the
schedule lists the order in which preparations complete, and after each
completion the chain emits every consecutive ready task.
-/

/-- One emit pass of the promise chain: starting at task `next`, emit each
consecutive task whose preparation has completed.  `fuel` bounds the loop. -/
def flushReady (blocks : List (List Nat)) :
    Nat → (Nat → Bool) → Nat → List Nat → Nat × List Nat
  | 0, _, next, out => (next, out)
  | fuel + 1, prepared, next, out =>
    if prepared next && decide (next < blocks.length) then
      flushReady blocks fuel prepared (next + 1) (out ++ blocks.getD next [])
    else (next, out)

/-- The event loop: process preparation completions in schedule order,
flushing the emit chain after each one. -/
def runSchedule (blocks : List (List Nat)) :
    List Nat → (Nat → Bool) → Nat → List Nat → Nat × List Nat
  | [], _, next, out => (next, out)
  | i :: rest, prepared, next, out =>
    let prepared2 := fun j => j == i || prepared j
    let r := flushReady blocks blocks.length prepared2 next out
    runSchedule blocks rest prepared2 r.1 r.2

theorem flushReady_spec (blocks : List (List Nat)) (fuel : Nat) :
    ∀ (prepared : Nat → Bool) (next : Nat) (out : List Nat),
      next ≤ blocks.length →
      out = (blocks.take next).flatten →
      (flushReady blocks fuel prepared next out).1 ≤ blocks.length
      ∧ next ≤ (flushReady blocks fuel prepared next out).1
      ∧ (flushReady blocks fuel prepared next out).2
          = (blocks.take (flushReady blocks fuel prepared next out).1).flatten
      ∧ (blocks.length - next ≤ fuel →
          (flushReady blocks fuel prepared next out).1 < blocks.length →
          prepared (flushReady blocks fuel prepared next out).1 = false) := by
  induction fuel with
  | zero =>
    intro prepared next out hn hout
    simp only [flushReady]
    refine ⟨hn, Nat.le_refl next, hout, ?_⟩
    intro hfuel hlt
    exact absurd hlt (by omega)
  | succ fuel ih =>
    intro prepared next out hn hout
    by_cases hc : (prepared next && decide (next < blocks.length)) = true
    · have hc2 : prepared next = true ∧ next < blocks.length := by simpa using hc
      have hlt2 : next < blocks.length := hc2.2
      have hout2 : out ++ blocks.getD next []
          = (blocks.take (next + 1)).flatten := by
        rw [hout, List.take_succ, List.flatten_append,
          List.getElem?_eq_getElem hlt2]
        simp [List.getD_eq_getElem?_getD, List.getElem?_eq_getElem hlt2]
      obtain ⟨ha, hb, hcc, hd⟩ := ih prepared (next + 1) (out ++ blocks.getD next [])
        (by omega) hout2
      rw [flushReady, if_pos hc]
      refine ⟨ha, by omega, hcc, ?_⟩
      intro hfuel hlt
      exact hd (by omega) hlt
    · rw [flushReady, if_neg hc]
      refine ⟨hn, Nat.le_refl next, hout, ?_⟩
      intro _ hlt
      show prepared next = false
      cases hp : prepared next with
      | false => rfl
      | true =>
        exfalso
        apply hc
        simp only [hp, Bool.true_and, decide_eq_true_iff]
        exact hlt

theorem runSchedule_spec (blocks : List (List Nat)) :
    ∀ (sched : List Nat) (prepared : Nat → Bool) (next : Nat) (out : List Nat),
      next ≤ blocks.length →
      out = (blocks.take next).flatten →
      (next < blocks.length → prepared next = false) →
      (∀ i, i < blocks.length → i ∈ sched ∨ prepared i = true) →
      (runSchedule blocks sched prepared next out).2 = blocks.flatten := by
  intro sched
  induction sched with
  | nil =>
    intro prepared next out hn hout hstop hcov
    have hnn : next = blocks.length := by
      by_contra hne
      have hlt : next < blocks.length := by omega
      rcases hcov next hlt with h | h
      · cases h
      · rw [hstop hlt] at h; cases h
    rw [runSchedule]
    rw [hout, hnn, List.take_length]
  | cons i rest ih =>
    intro prepared next out hn hout hstop hcov
    rw [runSchedule]
    have hf := flushReady_spec blocks blocks.length
      (fun j => j == i || prepared j) next out hn hout
    apply ih
    · exact hf.1
    · exact hf.2.2.1
    · intro hlt
      exact hf.2.2.2 (by omega) hlt
    · intro j hj
      rcases hcov j hj with hm | hp
      · rcases List.mem_cons.mp hm with he | hm2
        · right; simp [he]
        · left; exact hm2
      · right; simp [hp]

/-- C9: for every schedule of preparation completions that eventually
completes every task, the emitted output is the concatenation of the task
blocks in exactly the call (queue) order: no block is reordered, and a
block is emitted only after every earlier block. -/
theorem c9_output_order_matches_call_order (blocks : List (List Nat))
    (sched : List Nat) (hcov : ∀ i, i < blocks.length → i ∈ sched) :
    (runSchedule blocks sched (fun _ => false) 0 []).2 = blocks.flatten := by
  apply runSchedule_spec blocks sched (fun _ => false) 0 []
  · exact Nat.zero_le _
  · rfl
  · intro _; rfl
  · intro i hi; exact Or.inl (hcov i hi)

/-- Witness for C9: three blocks whose preparations complete in the order
2, 0, 1 are still emitted in queue order 0, 1, 2. -/
theorem c9_output_order_matches_call_order_witness :
    (∀ i, i < 3 → i ∈ [2, 0, 1])
    ∧ (runSchedule [[1], [2, 3], [4]] [2, 0, 1] (fun _ => false) 0 []).2
        = [1, 2, 3, 4] := by
  constructor
  · decide
  · have h := c9_output_order_matches_call_order [[1], [2, 3], [4]] [2, 0, 1]
      (by decide)
    simpa using h


/-- The 256-entry CP437 table from the source, as Unicode code points
(character `i` of the source string has code point `cp437[i]`). -/
def cp437 : List Nat := [0, 9786, 9787, 9829, 9830, 9827, 9824, 8226, 9688, 9675, 9689, 9794, 9792, 9834, 9835, 9788,
  9658, 9668, 8597, 8252, 182, 167, 9644, 8616, 8593, 8595, 8594, 8592, 8735, 8596, 9650, 9660,
  32, 33, 34, 35, 36, 37, 38, 39, 40, 41, 42, 43, 44, 45, 46, 47,
  48, 49, 50, 51, 52, 53, 54, 55, 56, 57, 58, 59, 60, 61, 62, 63,
  64, 65, 66, 67, 68, 69, 70, 71, 72, 73, 74, 75, 76, 77, 78, 79,
  80, 81, 82, 83, 84, 85, 86, 87, 88, 89, 90, 91, 92, 93, 94, 95,
  96, 97, 98, 99, 100, 101, 102, 103, 104, 105, 106, 107, 108, 109, 110, 111,
  112, 113, 114, 115, 116, 117, 118, 119, 120, 121, 122, 123, 124, 125, 126, 8962,
  199, 252, 233, 226, 228, 224, 229, 231, 234, 235, 232, 239, 238, 236, 196, 197,
  201, 230, 198, 244, 246, 242, 251, 249, 255, 214, 220, 162, 163, 165, 8359, 402,
  225, 237, 243, 250, 241, 209, 170, 186, 191, 8976, 172, 189, 188, 161, 171, 187,
  9617, 9618, 9619, 9474, 9508, 9569, 9570, 9558, 9557, 9571, 9553, 9559, 9565, 9564, 9563, 9488,
  9492, 9524, 9516, 9500, 9472, 9532, 9566, 9567, 9562, 9556, 9577, 9574, 9568, 9552, 9580, 9575,
  9576, 9572, 9573, 9561, 9560, 9554, 9555, 9579, 9578, 9496, 9484, 9608, 9604, 9612, 9616, 9600,
  945, 223, 915, 960, 931, 963, 181, 964, 934, 920, 937, 948, 8734, 966, 949, 8745,
  8801, 177, 8805, 8804, 8992, 8993, 247, 8776, 176, 8729, 183, 8730, 8319, 178, 9632, 160]

/-- The fast-path regex test: every character in printable ASCII. -/
def isPrintableAscii (c : Nat) : Bool := decide (0x20 <= c) && decide (c <= 0x7e)

/-- One step of building/consulting the lazily built `reverseCp437` map:
later indices overwrite earlier ones, exactly like the source loop. -/
def cp437LookupStep (c : Nat) (acc : Option Nat) (i : Nat) : Option Nat :=
  if cp437.getD i 0 = c then some i else acc

/-- Consulting `reverseCp437[c]`: the last index whose table entry is `c`. -/
def reverseCp437Lookup (c : Nat) : Option Nat :=
  (List.range 256).foldl (cp437LookupStep c) none

/-- The slow path of `encodeCp437`: map each character through the reverse
table, failing on the first character that is absent. -/
def encodeCp437Slow : List Nat -> Except String (List Nat)
  | [] => .ok []
  | c :: rest =>
    match reverseCp437Lookup c with
    | none => .error "character not encodable in CP437"
    | some b =>
      match encodeCp437Slow rest with
      | .error e => .error e
      | .ok bs => .ok (b :: bs)

/-- `encodeCp437`: fast path for pure printable ASCII (UTF-8 bytes coincide
with the code points), slow path through the reverse CP437 table. -/
def encodeCp437 (s : List Nat) : Except String (List Nat) :=
  if s.all isPrintableAscii then .ok s else encodeCp437Slow s

set_option maxRecDepth 8192

theorem cp437_length : cp437.length = 256 := rfl

theorem cp437_ascii_identity :
    forall c : Nat, c < 127 -> 32 <= c -> cp437.getD c 0 = c := by decide

theorem cp437LookupStep_foldl_sound (c : Nat) (L : List Nat) :
    forall (acc : Option Nat),
      (forall j, acc = some j -> cp437.getD j 0 = c) ->
      forall j, L.foldl (cp437LookupStep c) acc = some j -> cp437.getD j 0 = c := by
  induction L with
  | nil => intro acc hacc j h; exact hacc j h
  | cons i rest ih =>
    intro acc hacc j h
    simp only [List.foldl_cons] at h
    apply ih _ _ j h
    intro j2 hj2
    rw [cp437LookupStep] at hj2
    by_cases hm : cp437.getD i 0 = c
    · rw [if_pos hm] at hj2
      injection hj2 with h3
      rw [<- h3]
      exact hm
    · rw [if_neg hm] at hj2
      exact hacc j2 hj2

theorem cp437LookupStep_foldl_some (c a : Nat) (L : List Nat) :
    exists j, L.foldl (cp437LookupStep c) (some a) = some j := by
  induction L generalizing a with
  | nil => exact ⟨a, rfl⟩
  | cons i rest ih =>
    simp only [List.foldl_cons]
    rw [cp437LookupStep]
    by_cases hm : cp437.getD i 0 = c
    · rw [if_pos hm]; exact ih i
    · rw [if_neg hm]; exact ih a

theorem cp437LookupStep_foldl_mem (c : Nat) (L : List Nat) :
    forall (acc : Option Nat) (i : Nat), i ∈ L -> cp437.getD i 0 = c ->
      exists j, L.foldl (cp437LookupStep c) acc = some j := by
  induction L with
  | nil => intro acc i hi; cases hi
  | cons i0 rest ih =>
    intro acc i hi hc
    simp only [List.foldl_cons]
    rcases List.mem_cons.mp hi with he | hm
    · subst he
      rw [cp437LookupStep, if_pos hc]
      exact cp437LookupStep_foldl_some c i rest
    · exact ih _ i hm hc

theorem reverseCp437Lookup_sound (c j : Nat)
    (h : reverseCp437Lookup c = some j) : cp437.getD j 0 = c := by
  apply cp437LookupStep_foldl_sound c (List.range 256) none _ j h
  intro j2 hj2
  cases hj2

theorem reverseCp437Lookup_isSome (c : Nat) (h : c ∈ cp437) :
    exists j, reverseCp437Lookup c = some j := by
  obtain ⟨i, hlt, hgi⟩ := List.getElem_of_mem h
  apply cp437LookupStep_foldl_mem c (List.range 256) none i
  · rw [List.mem_range]
    rw [cp437_length] at hlt
    exact hlt
  · rw [List.getD_eq_getElem?_getD, List.getElem?_eq_getElem hlt]
    simpa using hgi

theorem reverseCp437Lookup_none (c : Nat) (h : ¬ c ∈ cp437) :
    reverseCp437Lookup c = none := by
  have key : forall (L : List Nat), (forall i, i ∈ L -> i < cp437.length) ->
      L.foldl (cp437LookupStep c) none = none := by
    intro L
    induction L with
    | nil => intro _; rfl
    | cons i0 rest ih =>
      intro hb
      simp only [List.foldl_cons]
      rw [cp437LookupStep]
      have hi0 : i0 < cp437.length := hb i0 (List.mem_cons_self i0 rest)
      have hne : cp437.getD i0 0 ≠ c := by
        intro he
        apply h
        rw [<- he, List.getD_eq_getElem?_getD, List.getElem?_eq_getElem hi0]
        exact List.getElem_mem hi0
      rw [if_neg hne]
      exact ih (fun i hi => hb i (List.mem_cons_of_mem i0 hi))
  apply key
  intro i hi
  rw [cp437_length]
  exact List.mem_range.mp hi

theorem mem_cp437_of_printable (c : Nat) (h : isPrintableAscii c = true) :
    c ∈ cp437 := by
  have hb : 32 <= c ∧ c <= 126 := by simpa [isPrintableAscii] using h
  have hlt : c < cp437.length := by rw [cp437_length]; omega
  have hid := cp437_ascii_identity c (by omega) hb.1
  rw [List.getD_eq_getElem?_getD, List.getElem?_eq_getElem hlt] at hid
  simp only [Option.getD_some] at hid
  rw [<- hid]
  exact List.getElem_mem hlt

theorem encodeCp437Slow_ok (s : List Nat) (h : forall c, c ∈ s -> c ∈ cp437) :
    exists b, encodeCp437Slow s = .ok b ∧ b.length = s.length
      ∧ forall i, i < s.length -> cp437.getD (b.getD i 0) 0 = s.getD i 0 := by
  induction s with
  | nil =>
    refine ⟨[], rfl, rfl, ?_⟩
    intro i hi
    simp at hi
  | cons c rest ih =>
    have hc := h c (List.mem_cons_self c rest)
    obtain ⟨j, hj⟩ := reverseCp437Lookup_isSome c hc
    obtain ⟨b, hb, hlen, hpt⟩ := ih (fun x hx => h x (List.mem_cons_of_mem c hx))
    refine ⟨j :: b, ?_, by simp [hlen], ?_⟩
    · simp only [encodeCp437Slow, hj, hb]
    · intro i hi
      cases i with
      | zero =>
        simp only [List.getD_cons_zero]
        exact reverseCp437Lookup_sound c j hj
      | succ i2 =>
        simp only [List.getD_cons_succ]
        exact hpt i2 (by simpa using hi)

theorem encodeCp437Slow_error (s : List Nat) :
    forall c, c ∈ s -> reverseCp437Lookup c = none ->
      exists e, encodeCp437Slow s = .error e := by
  induction s with
  | nil => intro c hc; cases hc
  | cons c0 rest ih =>
    intro c hc hn
    rcases List.mem_cons.mp hc with he | hm
    · subst he
      simp only [encodeCp437Slow, hn]
      exact ⟨_, rfl⟩
    · cases hl : reverseCp437Lookup c0 with
      | none =>
        simp only [encodeCp437Slow, hl]
        exact ⟨_, rfl⟩
      | some j =>
        obtain ⟨e, he⟩ := ih c hm hn
        simp only [encodeCp437Slow, hl, he]
        exact ⟨e, rfl⟩

/-- C10: a pure printable-ASCII string encodes to exactly its code points
(one byte per character); any string whose characters all occur in the
CP437 table encodes to bytes b with cp437[b[i]] recovering character i (the
encode-decode round trip); a character absent from the table makes the
encoder fail. -/
theorem c10_encode_cp437 (s : List Nat) :
    (s.all isPrintableAscii = true -> encodeCp437 s = .ok s)
    ∧ ((forall c, c ∈ s -> c ∈ cp437) ->
        exists b, encodeCp437 s = .ok b ∧ b.length = s.length
          ∧ forall i, i < s.length -> cp437.getD (b.getD i 0) 0 = s.getD i 0)
    ∧ (forall c, c ∈ s -> ¬ c ∈ cp437 -> exists e, encodeCp437 s = .error e) := by
  refine ⟨?_, ?_, ?_⟩
  · intro h
    simp [encodeCp437, h]
  · intro h
    by_cases ha : s.all isPrintableAscii = true
    · refine ⟨s, by simp [encodeCp437, ha], rfl, ?_⟩
      intro i hi
      have hg : s.getD i 0 = s[i] := by
        rw [List.getD_eq_getElem?_getD, List.getElem?_eq_getElem hi]
        rfl
      have hmem2 : s.getD i 0 ∈ s := by
        rw [hg]
        exact List.getElem_mem hi
      have hpc : isPrintableAscii (s.getD i 0) = true :=
        List.all_eq_true.mp ha _ hmem2
      have hb : 32 <= s.getD i 0 ∧ s.getD i 0 <= 126 := by
        simpa [isPrintableAscii] using hpc
      exact cp437_ascii_identity (s.getD i 0) (by omega) hb.1
    · rw [encodeCp437, if_neg ha]
      exact encodeCp437Slow_ok s h
  · intro c hc hmem
    have hn := reverseCp437Lookup_none c hmem
    have hp : isPrintableAscii c = false := by
      cases hq : isPrintableAscii c with
      | false => rfl
      | true => exact absurd (mem_cp437_of_printable c hq) hmem
    have ha : ¬ s.all isPrintableAscii = true := by
      intro hq
      have := List.all_eq_true.mp hq c hc
      rw [hp] at this
      cases this
    rw [encodeCp437, if_neg ha]
    exact encodeCp437Slow_error s c hc hn

/-- Witness for C10: an ASCII string round-trips identically, a table
character (U+263A at index 1) encodes through the reverse table, and a
character absent from the table (U+10000) fails. -/
theorem c10_encode_cp437_witness :
    encodeCp437 [72, 105] = .ok [72, 105]
    ∧ (exists b, encodeCp437 [9786] = .ok b ∧ b.length = ([9786] : List Nat).length
        ∧ forall i, i < ([9786] : List Nat).length ->
            cp437.getD (b.getD i 0) 0 = ([9786] : List Nat).getD i 0)
    ∧ (exists e, encodeCp437 [65536] = .error e) := by
  refine ⟨?_, ?_, ?_⟩
  · exact (c10_encode_cp437 [72, 105]).1 (by decide)
  · exact (c10_encode_cp437 [9786]).2.1 (by decide)
  · exact (c10_encode_cp437 [65536]).2.2 65536 (by decide) (by decide)

end Yazl
